import Mathlib

/-!
# Verification of the license server core (`src/license_server.py`)

This file gives a shallow embedding of the license verification and binding
engine and settles the specification's claims against it.

* The license store is modelled as an association list from license keys to
  records, mirroring the `licenses` table (key PRIMARY KEY, expires BIGINT,
  hwid TEXT NULL, revoked BOOLEAN).
* SQL statements become pure functions on the store: `SELECT ... WHERE key`
  is `getRecord`, `UPDATE ... WHERE key` is `mapUpdate`, and
  `INSERT ... ON CONFLICT (key) DO UPDATE` is `create_license`.
* `verify_license` is split as `verifyFinish ∘ getRecord`, mirroring the two
  separate database round trips in the handler (the SELECT on one connection,
  then — on the first-bind path — an unconditional UPDATE on a fresh
  connection). Sequential behaviour is `verify_license`; interleavings of two
  requests are expressed by composing the two phases explicitly.
* `sign` is embedded in full: SHA-256 over the UTF-8 bytes of
  `f"{valid}|{expires}" + LICENSE_SECRET`, rendered as a lowercase hex digest.
* The Rate Governor and the admin hwid-reset endpoint are not present in
  `src/license_server.py`; they are modelled from the spec where a claim needs
  them (marked `Modelled from the spec:`).
-/

/-! ## SHA-256 (embedding of `hashlib.sha256(...).hexdigest()`) -/

/-- Truncate to a 32-bit word (`x % 2^32`). -/
def m32 (x : Nat) : Nat := x % 4294967296

/-- Right rotation of a 32-bit word by `n` bits. -/
def rotr (n x : Nat) : Nat := m32 (Nat.lor (x >>> n) (x <<< (32 - n)))

/-- SHA-256 `Ch` function. -/
def shaCh (x y z : Nat) : Nat := (x &&& y) ^^^ ((x ^^^ 4294967295) &&& z)

/-- SHA-256 `Maj` function. -/
def shaMaj (x y z : Nat) : Nat := Nat.xor (Nat.xor (x &&& y) (x &&& z)) (y &&& z)

/-- SHA-256 `Σ₀`. -/
def bigSigma0 (x : Nat) : Nat := rotr 2 x ^^^ rotr 13 x ^^^ rotr 22 x

/-- SHA-256 `Σ₁`. -/
def bigSigma1 (x : Nat) : Nat := rotr 6 x ^^^ rotr 11 x ^^^ rotr 25 x

/-- SHA-256 `σ₀`. -/
def smallSigma0 (x : Nat) : Nat := rotr 7 x ^^^ rotr 18 x ^^^ (x >>> 3)

/-- SHA-256 `σ₁`. -/
def smallSigma1 (x : Nat) : Nat := rotr 17 x ^^^ rotr 19 x ^^^ (x >>> 10)

/-- The 64 SHA-256 round constants. -/
def K256 : List Nat :=
  [1116352408, 1899447441, 3049323471, 3921009573, 961987163,
   1508970993, 2453635748, 2870763221, 3624381080, 310598401,
   607225278, 1426881987, 1925078388, 2162078206, 2614888103,
   3248222580, 3835390401, 4022224774, 264347078, 604807628,
   770255983, 1249150122, 1555081692, 1996064986, 2554220882,
   2821834349, 2952996808, 3210313671, 3336571891, 3584528711,
   113926993, 338241895, 666307205, 773529912, 1294757372,
   1396182291, 1695183700, 1986661051, 2177026350, 2456956037,
   2730485921, 2820302411, 3259730800, 3345764771, 3516065817,
   3600352804, 4094571909, 275423344, 430227734, 506948616,
   659060556, 883997877, 958139571, 1322822218, 1537002063,
   1747873779, 1955562222, 2024104815, 2227730452, 2361852424,
   2428436474, 2756734187, 3204031479, 3329325298]

/-- Working state / chaining value of SHA-256: eight 32-bit words. -/
structure Sha8 where
  a : Nat
  b : Nat
  c : Nat
  d : Nat
  e : Nat
  f : Nat
  g : Nat
  hh : Nat
deriving DecidableEq

/-- SHA-256 initial hash value. -/
def initH : Sha8 :=
  ⟨1779033703, 3144134277, 1013904242, 2773480762,
   1359893119, 2600822924, 528734635, 1541459225⟩

/-- Merkle–Damgård padding: append `0x80`, zeros and the 64-bit big-endian
bit length so the byte length is a multiple of 64. -/
def padBytes (msg : List Nat) : List Nat :=
  msg ++ [128] ++ List.replicate ((119 - msg.length % 64) % 64) 0 ++
    (List.range 8).map (fun i => msg.length * 8 / 256 ^ (7 - i) % 256)

/-- Split a byte list into 64-byte blocks (`n` is the number of blocks). -/
def chunksGo : Nat → List Nat → List (List Nat)
  | 0, _ => []
  | n + 1, l => l.take 64 :: chunksGo n (l.drop 64)

/-- Split a padded byte list into its 64-byte blocks. -/
def chunks64 (l : List Nat) : List (List Nat) := chunksGo (l.length / 64) l

/-- The 16 big-endian 32-bit words of one 64-byte block. -/
def blockWords (b : List Nat) : List Nat :=
  (List.range 16).map (fun i =>
    b.getD (4 * i) 0 * 16777216 + b.getD (4 * i + 1) 0 * 65536 +
      b.getD (4 * i + 2) 0 * 256 + b.getD (4 * i + 3) 0)

/-- One step of the message-schedule extension: append word `w_t` computed
from the words 2, 7, 15 and 16 positions back. -/
def scheduleStep (ws : List Nat) : List Nat :=
  ws ++ [m32 (smallSigma1 (ws.getD (ws.length - 2) 0) + ws.getD (ws.length - 7) 0 +
              smallSigma0 (ws.getD (ws.length - 15) 0) + ws.getD (ws.length - 16) 0)]

/-- Iterate a function `n` times. -/
def repeatApply {α : Type} (f : α → α) : Nat → α → α
  | 0, x => x
  | n + 1, x => repeatApply f n (f x)

/-- One SHA-256 compression round, consuming a pair (round constant, schedule word). -/
def roundStep (st : Sha8) (kw : Nat × Nat) : Sha8 :=
  let t1 := m32 (st.hh + bigSigma1 st.e + shaCh st.e st.f st.g + kw.1 + kw.2)
  let t2 := m32 (bigSigma0 st.a + shaMaj st.a st.b st.c)
  ⟨m32 (t1 + t2), st.a, st.b, st.c, m32 (st.d + t1), st.e, st.f, st.g⟩

/-- Process one 64-byte block: 48 schedule-extension steps, 64 rounds, then
add the result into the chaining value. -/
def compressBlock (st : Sha8) (block : List Nat) : Sha8 :=
  let ws := repeatApply scheduleStep 48 (blockWords block)
  let fin := (K256.zip ws).foldl roundStep st
  ⟨m32 (st.a + fin.a), m32 (st.b + fin.b), m32 (st.c + fin.c), m32 (st.d + fin.d),
   m32 (st.e + fin.e), m32 (st.f + fin.f), m32 (st.g + fin.g), m32 (st.hh + fin.hh)⟩

/-- SHA-256 of a byte list, as the final eight-word chaining value. -/
def sha256Bytes (msg : List Nat) : Sha8 :=
  (chunks64 (padBytes msg)).foldl compressBlock initH

/-- Lowercase hexadecimal digit. -/
def hexDigitChar (n : Nat) : Char :=
  "0123456789abcdef".data.getD n '0'

/-- A 32-bit word as 8 lowercase hex characters, big-endian. -/
def wordHex (w : Nat) : String :=
  String.mk ((List.range 8).map (fun i => hexDigitChar (w / 16 ^ (7 - i) % 16)))

/-- The 64-character hex digest of an eight-word hash value. -/
def sha8Hex (st : Sha8) : String :=
  wordHex st.a ++ wordHex st.b ++ wordHex st.c ++ wordHex st.d ++
    wordHex st.e ++ wordHex st.f ++ wordHex st.g ++ wordHex st.hh

/-- UTF-8 encoding of a Unicode code point. -/
def utf8Bytes (n : Nat) : List Nat :=
  if n < 128 then [n]
  else if n < 2048 then [192 + n / 64, 128 + n % 64]
  else if n < 65536 then [224 + n / 4096, 128 + n / 64 % 64, 128 + n % 64]
  else [240 + n / 262144, 128 + n / 4096 % 64, 128 + n / 64 % 64, 128 + n % 64]

/-- UTF-8 bytes of a string (Python's `str.encode()`). -/
def strBytes (s : String) : List Nat :=
  s.data.foldr (fun c acc => utf8Bytes c.toNat ++ acc) []

/-- `hashlib.sha256(s.encode()).hexdigest()`. -/
def sha256Hex (s : String) : String := sha8Hex (sha256Bytes (strBytes s))

/-- Python's rendering of a `bool` inside an f-string: `"True"` / `"False"`. -/
def boolToken : Bool → String
  | true => "True"
  | false => "False"

/-- `sign` from `license_server.py`: SHA-256 hex digest of
`f"{valid}|{expires}" + LICENSE_SECRET`. -/
def sign (secret : String) (valid : Bool) (expires : Int) : String :=
  sha256Hex (boolToken valid ++ "|" ++ toString expires ++ secret)

/-! ## License store (the `licenses` table) -/

/-- One row of the `licenses` table: `expires BIGINT`, `hwid TEXT` (nullable),
`revoked BOOLEAN`. -/
structure Record where
  expires : Int
  hwid : Option String
  revoked : Bool
deriving DecidableEq

/-- The `licenses` table, keyed by the `key TEXT PRIMARY KEY` column. -/
abbrev Store : Type := List (String × Record)

/-- `SELECT expires, hwid, revoked FROM licenses WHERE key = %s` followed by
`fetchone()`: the first row whose key matches, or none. -/
def getRecord : Store → String → Option Record
  | [], _ => none
  | (k', r) :: t, k => if k' = k then some r else getRecord t k

/-- `UPDATE licenses SET ... WHERE key = %s`: apply `f` to every row whose key
matches (the key is a primary key, so at most one row in practice). -/
def mapUpdate (s : Store) (key : String) (f : Record → Record) : Store :=
  match s with
  | [] => []
  | (k', r) :: t => (k', if k' = key then f r else r) :: mapUpdate t key f

/-- `POST /admin/create` (`create_license`):
`INSERT INTO licenses (key, expires, hwid, revoked) VALUES (%s, %s, NULL, FALSE)
ON CONFLICT (key) DO UPDATE SET expires = EXCLUDED.expires, revoked = FALSE`.
Note the conflict branch updates only `expires` and `revoked`; `hwid` is left
as it was. -/
def create_license (s : Store) (key : String) (expires : Int) : Store :=
  if (getRecord s key).isSome then
    mapUpdate s key (fun r => { r with expires := expires, revoked := false })
  else
    s ++ [(key, ⟨expires, none, false⟩)]

/-- `POST /admin/revoke` (`revoke_license`):
`UPDATE licenses SET revoked = TRUE WHERE key = %s`. -/
def revoke_license (s : Store) (key : String) : Store :=
  mapUpdate s key (fun r => { r with revoked := true })

/-- `GET /admin/licenses` (`list_licenses`): `SELECT key, expires, hwid,
revoked FROM licenses`, returned with the store unchanged (the endpoint only
reads). -/
def list_licenses (s : Store) : List (String × Int × Option String × Bool) × Store :=
  (s.map (fun e => (e.1, e.2.expires, e.2.hwid, e.2.revoked)), s)

/-! ## Verify endpoint -/

/-- A verify response body: `{"valid": ..., "expires": ..., "signature": ...}`. -/
structure Verdict where
  valid : Bool
  expires : Int
  signature : String
deriving DecidableEq

/-- The second phase of `verify_license`, given `row`, the result of the
initial SELECT: the not-found / revoked / expired / first-bind / mismatch /
valid cascade of the handler. `s` is the store at the moment the phase runs;
on the first-bind path the handler issues the unconditional
`UPDATE licenses SET hwid = %s WHERE key = %s` against it (a blind write
guarded only by the previously read `row`, not a compare-and-set). -/
def verifyFinish (secret : String) (s : Store) (now : Int) (license hwid : String)
    (row : Option Record) : Verdict × Store :=
  match row with
  | none => (⟨false, 0, sign secret false 0⟩, s)
  | some r =>
    if r.revoked then
      (⟨false, r.expires, sign secret false r.expires⟩, s)
    else if r.expires < now then
      (⟨false, r.expires, sign secret false r.expires⟩, s)
    else
      match r.hwid with
      | none =>
        (⟨true, r.expires, sign secret true r.expires⟩,
         mapUpdate s license (fun r' => { r' with hwid := some hwid }))
      | some h =>
        if h ≠ hwid then
          (⟨false, r.expires, sign secret false r.expires⟩, s)
        else
          (⟨true, r.expires, sign secret true r.expires⟩, s)

/-- `POST /api/license/verify` (`verify_license`), run sequentially: the
SELECT immediately followed by the second phase on the same store. Every
business outcome is a returned `Verdict` value (the handler raises nothing);
the second component is the store after the request. -/
def verify_license (secret : String) (s : Store) (now : Int) (license hwid : String) :
    Verdict × Store :=
  verifyFinish secret s now license hwid (getRecord s license)

/-! ## Rate governor and hwid reset (modelled from the spec) -/

/-- Modelled from the spec: the Rate Governor's per-caller counter (§3 "Rate
Counter"), absent from `src/license_server.py`. Fields `count` and
`windowEnd` as in the spec. -/
structure RateCounter where
  count : Nat
  windowEnd : Int
deriving DecidableEq

/-- The process-local table of rate counters, keyed by caller identity. -/
abbrev RateTable : Type := String → Option RateCounter

/-- Modelled from the spec: `Admit(callerID)` of the Rate Governor (§4.2),
absent from `src/license_server.py`. If no counter exists or the current time
has passed the stored window end, reset the counter to 1, set the window end
to `now + 60` and admit; otherwise reject without incrementing when the count
is at or above the ceiling of 30, else increment and admit. -/
def allowCaller (rt : RateTable) (now : Int) (caller : String) : Bool × RateTable :=
  match rt caller with
  | none => (true, fun c => if c = caller then some ⟨1, now + 60⟩ else rt c)
  | some rc =>
    if rc.windowEnd < now then
      (true, fun c => if c = caller then some ⟨1, now + 60⟩ else rt c)
    else if 30 ≤ rc.count then
      (false, rt)
    else
      (true, fun c => if c = caller then some ⟨rc.count + 1, rc.windowEnd⟩ else rt c)

/-- `n` consecutive `Admit` calls by the same caller at the same time;
the boolean is whether every call was admitted. -/
def allowRun : Nat → RateTable → Int → String → Bool × RateTable
  | 0, rt, _, _ => (true, rt)
  | n + 1, rt, now, caller =>
    let p := allowCaller rt now caller
    if p.1 then allowRun n p.2 now caller else (false, p.2)

/-- The rate-limit failure condition: it carries no verdict body. -/
inductive RateLimited where
  | rateLimited
deriving DecidableEq

/-- Modelled from the spec: step 1 of the Verification Engine (§4.4), absent
from `src/license_server.py` — `Admit(callerID)` is consulted before any
store read; a rejection fails the request with `RateLimited` (no verdict) and
touches neither the store nor the counter. -/
def verifyWithRate (secret : String) (rt : RateTable) (s : Store) (now : Int)
    (caller license hwid : String) : Except RateLimited Verdict × RateTable × Store :=
  let p := allowCaller rt now caller
  if p.1 then
    let q := verify_license secret s now license hwid
    (Except.ok q.1, p.2, q.2)
  else
    (Except.error RateLimited.rateLimited, p.2, s)

/-- Modelled from the spec: the admin hwid-reset endpoint (`ResetHwid` →
`ClearHwid`, §4.5/§4.3), absent from `src/license_server.py`: clear the bound
hwid of the given license back to absent. -/
def reset_hwid (s : Store) (key : String) : Store :=
  mapUpdate s key (fun r => { r with hwid := none })


/-! ## Store lemmas -/

theorem getRecord_mapUpdate_self (s : Store) (key : String) (f : Record → Record) :
    getRecord (mapUpdate s key f) key = (getRecord s key).map f := by
  induction s with
  | nil => simp [getRecord, mapUpdate]
  | cons e t ih =>
    obtain ⟨k', r⟩ := e
    by_cases h1 : k' = key
    · subst h1
      simp [getRecord, mapUpdate]
    · simp [getRecord, mapUpdate, h1, ih]

theorem getRecord_mapUpdate_other (s : Store) (key k : String) (f : Record → Record)
    (h : ¬ k = key) : getRecord (mapUpdate s key f) k = getRecord s k := by
  induction s with
  | nil => simp [getRecord, mapUpdate]
  | cons e t ih =>
    obtain ⟨k', r⟩ := e
    by_cases h2 : k' = k
    · subst h2
      simp [getRecord, mapUpdate, h]
    · by_cases h1 : k' = key <;> simp [getRecord, mapUpdate, h1, h2, ih, Ne.symm h]

theorem getRecord_append_some (s t : Store) (k : String) (r : Record)
    (h : getRecord s k = some r) : getRecord (s ++ t) k = some r := by
  induction s with
  | nil => simp [getRecord] at h
  | cons e s' ih =>
    obtain ⟨k', r'⟩ := e
    by_cases h2 : k' = k <;> simp_all [getRecord]

theorem getRecord_append_none (s t : Store) (k : String)
    (h : getRecord s k = none) : getRecord (s ++ t) k = getRecord t k := by
  induction s with
  | nil => simp [getRecord]
  | cons e s' ih =>
    obtain ⟨k', r'⟩ := e
    by_cases h2 : k' = k <;> simp_all [getRecord]

/-! ## Claim theorems -/

/-- C5: for every license identifier with no record in the store and every
request hwid, `verify_license` returns the normal negative verdict
`{valid: false, expires: 0}` signed as `sign(False, 0)`, as a value (the
embedding is a total function into `Verdict`), and leaves the store
unchanged (no write). -/
theorem verify_notFound (secret : String) (s : Store) (now : Int) (L H : String)
    (hnone : getRecord s L = none) :
    verify_license secret s now L H = (⟨false, 0, sign secret false 0⟩, s) := by
  simp [verify_license, verifyFinish, hnone]

/-- Witness for C5 at the empty store. -/
theorem verify_notFound_witness :
    getRecord ([] : Store) "LIC" = none ∧
    verify_license "sec" [] 100 "LIC" "HW" = (⟨false, 0, sign "sec" false 0⟩, []) :=
  ⟨rfl, verify_notFound "sec" [] 100 "LIC" "HW" rfl⟩

/-- C7: for every record with `revoked = true`, `verify_license` returns
`{valid: false, expires: record.expires}` signed over those values, whatever
the expiry and the request hwid (also when the record is unbound), and the
store is unchanged — in particular no binding write happens. -/
theorem verify_revoked (secret : String) (s : Store) (now : Int) (L H : String)
    (r : Record) (hb : getRecord s L = some r) (hrev : r.revoked = true) :
    verify_license secret s now L H =
      (⟨false, r.expires, sign secret false r.expires⟩, s) := by
  simp [verify_license, verifyFinish, hb, hrev]

/-- Witness for C7: a revoked, unexpired, unbound record. -/
theorem verify_revoked_witness :
    getRecord [("K", (⟨50, none, true⟩ : Record))] "K" = some ⟨50, none, true⟩ ∧
    (⟨50, none, true⟩ : Record).revoked = true ∧
    verify_license "sec" [("K", ⟨50, none, true⟩)] 10 "K" "HW" =
      (⟨false, 50, sign "sec" false 50⟩, [("K", ⟨50, none, true⟩)]) :=
  ⟨by decide, rfl, verify_revoked "sec" [("K", ⟨50, none, true⟩)] 10 "K" "HW"
    ⟨50, none, true⟩ (by decide) rfl⟩

/-- C6: the expiry comparison is strictly less-than. For a non-revoked record
whose hwid is absent or equal to the request hwid: if `expires = now` the
verdict is valid, and if `expires < now` (in particular `expires = now - 1`)
the verdict is `{valid: false, expires: record.expires}`. -/
theorem verify_expiry_boundary (secret : String) (s : Store) (now : Int)
    (L H : String) (r : Record) (hb : getRecord s L = some r)
    (hrev : r.revoked = false) (hhw : r.hwid = none ∨ r.hwid = some H) :
    (r.expires = now → (verify_license secret s now L H).1.valid = true) ∧
    (r.expires < now →
      (verify_license secret s now L H).1 =
        ⟨false, r.expires, sign secret false r.expires⟩) := by
  constructor
  · intro he
    rcases hhw with h | h <;>
      simp [verify_license, verifyFinish, hb, hrev, h, he, lt_irrefl]
  · intro hlt
    simp [verify_license, verifyFinish, hb, hrev, hlt]

/-- Witness for C6: a bound matching record expiring exactly now. -/
theorem verify_expiry_boundary_witness :
    getRecord [("K", (⟨100, some "HW", false⟩ : Record))] "K" = some ⟨100, some "HW", false⟩ ∧
    (⟨100, some "HW", false⟩ : Record).revoked = false ∧
    ((⟨100, some "HW", false⟩ : Record).hwid = none ∨
      (⟨100, some "HW", false⟩ : Record).hwid = some "HW") ∧
    (((⟨100, some "HW", false⟩ : Record).expires = 100 →
        (verify_license "sec" [("K", ⟨100, some "HW", false⟩)] 100 "K" "HW").1.valid = true) ∧
     ((⟨100, some "HW", false⟩ : Record).expires < 100 →
        (verify_license "sec" [("K", ⟨100, some "HW", false⟩)] 100 "K" "HW").1 =
          ⟨false, 100, sign "sec" false 100⟩)) :=
  ⟨by decide, rfl, Or.inr rfl,
   verify_expiry_boundary "sec" [("K", ⟨100, some "HW", false⟩)] 100 "K" "HW"
     ⟨100, some "HW", false⟩ (by decide) rfl (Or.inr rfl)⟩

/-- C2 counterexample: upserting over an existing record with a bound hwid
does NOT reset the hwid — `ON CONFLICT (key) DO UPDATE` only sets `expires`
and `revoked`, so the resulting record still carries `hwid = "H"`, not the
state `{expires given, hwid absent, revoked false}` the claim requires. -/
theorem create_keeps_hwid_counterexample :
    getRecord (create_license [("K", ⟨10, some "H", true⟩)] "K" 20) "K" =
      some ⟨20, some "H", false⟩ ∧
    getRecord (create_license [("K", ⟨10, some "H", true⟩)] "K" 20) "K" ≠
      some ⟨20, none, false⟩ := by
  decide

/-- C2 (amended): the admin create/upsert sets `expires` as given and
`revoked` to false; the hwid of the resulting record is absent when no record
existed, and is the previously stored hwid when one did (merge on `hwid`,
not full replacement). -/
theorem create_license_spec (s : Store) (key : String) (e : Int) :
    getRecord (create_license s key e) key =
      some ⟨e, (match getRecord s key with | none => none | some r => r.hwid), false⟩ := by
  cases hg : getRecord s key with
  | none =>
    rw [create_license, if_neg (by simp [hg]),
      getRecord_append_none s _ key hg]
    simp [getRecord]
  | some r =>
    rw [create_license, if_pos (by simp [hg]), getRecord_mapUpdate_self, hg]
    rfl

/-- C8: for a non-revoked, non-expired, unbound license, the first verify with
hwid `H` returns valid and binds `H`; a second verify with `H` is valid and
writes nothing; a verify with a different hwid `H'` returns the invalid
verdict over the stored expiry and also writes nothing, leaving the stored
hwid equal to `H`. -/
theorem verify_bind_sequence (secret : String) (s : Store) (key : String)
    (r : Record) (now : Int) (H H' : String)
    (hb : getRecord s key = some r) (hrev : r.revoked = false)
    (hexp : ¬ r.expires < now) (hhw : r.hwid = none) (hne : H' ≠ H) :
    (verify_license secret s now key H).1 =
      ⟨true, r.expires, sign secret true r.expires⟩ ∧
    getRecord (verify_license secret s now key H).2 key =
      some ⟨r.expires, some H, false⟩ ∧
    (verify_license secret (verify_license secret s now key H).2 now key H).1.valid = true ∧
    (verify_license secret (verify_license secret s now key H).2 now key H).2 =
      (verify_license secret s now key H).2 ∧
    (verify_license secret (verify_license secret s now key H).2 now key H').1 =
      ⟨false, r.expires, sign secret false r.expires⟩ ∧
    (verify_license secret (verify_license secret s now key H).2 now key H').2 =
      (verify_license secret s now key H).2 := by
  have h1 : verify_license secret s now key H =
      (⟨true, r.expires, sign secret true r.expires⟩,
       mapUpdate s key (fun r' => { r' with hwid := some H })) := by
    simp [verify_license, verifyFinish, hb, hrev, hexp, hhw]
  have h2 : getRecord (mapUpdate s key (fun r' => { r' with hwid := some H })) key =
      some ⟨r.expires, some H, false⟩ := by
    rw [getRecord_mapUpdate_self, hb]
    simp [← hrev]
  refine ⟨by rw [h1], by rw [h1]; exact h2, ?_, ?_, ?_, ?_⟩ <;>
    rw [h1] <;>
    simp [verify_license, verifyFinish, h2, hexp, hne, Ne.symm hne]

/-- Witness for C8 at a concrete one-row store. -/
theorem verify_bind_sequence_witness :
    (getRecord [("K", (⟨100, none, false⟩ : Record))] "K" = some ⟨100, none, false⟩ ∧
     (⟨100, none, false⟩ : Record).revoked = false ∧
     ¬ (⟨100, none, false⟩ : Record).expires < 50 ∧
     (⟨100, none, false⟩ : Record).hwid = none ∧ "Y" ≠ "X") ∧
    ((verify_license "sec" [("K", ⟨100, none, false⟩)] 50 "K" "X").1 =
       ⟨true, 100, sign "sec" true 100⟩ ∧
     getRecord (verify_license "sec" [("K", ⟨100, none, false⟩)] 50 "K" "X").2 "K" =
       some ⟨100, some "X", false⟩ ∧
     (verify_license "sec"
        (verify_license "sec" [("K", ⟨100, none, false⟩)] 50 "K" "X").2 50 "K" "X").1.valid = true ∧
     (verify_license "sec"
        (verify_license "sec" [("K", ⟨100, none, false⟩)] 50 "K" "X").2 50 "K" "X").2 =
       (verify_license "sec" [("K", ⟨100, none, false⟩)] 50 "K" "X").2 ∧
     (verify_license "sec"
        (verify_license "sec" [("K", ⟨100, none, false⟩)] 50 "K" "X").2 50 "K" "Y").1 =
       ⟨false, 100, sign "sec" false 100⟩ ∧
     (verify_license "sec"
        (verify_license "sec" [("K", ⟨100, none, false⟩)] 50 "K" "X").2 50 "K" "Y").2 =
       (verify_license "sec" [("K", ⟨100, none, false⟩)] 50 "K" "X").2) :=
  ⟨⟨by decide, rfl, by decide, rfl, by decide⟩,
   verify_bind_sequence "sec" [("K", ⟨100, none, false⟩)] "K" ⟨100, none, false⟩
     50 "X" "Y" (by decide) rfl (by decide) rfl (by decide)⟩

/-- The only store effect of a sequential `verify_license` call: either the
store is untouched, or the SELECT saw an unbound record and the handler
issued the hwid UPDATE for that license key. -/
theorem verify_store_effect (secret : String) (s : Store) (now : Int) (L H : String) :
    (verify_license secret s now L H).2 = s ∨
    ((∃ r0, getRecord s L = some r0 ∧ r0.hwid = none) ∧
     (verify_license secret s now L H).2 =
       mapUpdate s L (fun r' => { r' with hwid := some H })) := by
  cases hg : getRecord s L with
  | none => exact Or.inl (by simp [verify_license, verifyFinish, hg])
  | some r =>
    by_cases h1 : r.revoked
    · exact Or.inl (by simp [verify_license, verifyFinish, hg, h1])
    · by_cases h2 : r.expires < now
      · exact Or.inl (by simp [verify_license, verifyFinish, hg, h1, h2])
      · cases hw : r.hwid with
        | none =>
          exact Or.inr ⟨⟨r, rfl, hw⟩, by simp [verify_license, verifyFinish, hg, h1, h2, hw]⟩
        | some h0 =>
          by_cases h3 : h0 = H
          · exact Or.inl (by simp [verify_license, verifyFinish, hg, h1, h2, hw, h3])
          · exact Or.inl (by simp [verify_license, verifyFinish, hg, h1, h2, hw, h3])

/-- C10: once a record's hwid is bound, every operation the program exposes
preserves it: admin create/upsert (any key), admin revoke (any key), verify
(any license and request hwid), and the admin list (which does not write at
all). -/
theorem bound_hwid_permanent (secret : String) (s : Store) (key : String)
    (r : Record) (h : String) (now e : Int) (k' L H : String)
    (hb : getRecord s key = some r) (hh : r.hwid = some h) :
    (getRecord (create_license s k' e) key).map Record.hwid = some (some h) ∧
    (getRecord (revoke_license s k') key).map Record.hwid = some (some h) ∧
    (getRecord (verify_license secret s now L H).2 key).map Record.hwid = some (some h) ∧
    (list_licenses s).2 = s := by
  refine ⟨?_, ?_, ?_, rfl⟩
  · by_cases hk : key = k'
    · subst hk
      rw [create_license, if_pos (by simp [hb]), getRecord_mapUpdate_self, hb]
      simp [hh]
    · rw [create_license]
      by_cases hex : (getRecord s k').isSome
      · rw [if_pos hex, getRecord_mapUpdate_other s k' key _ hk, hb]
        simp [hh]
      · rw [if_neg hex, getRecord_append_some s _ key r hb]
        simp [hh]
  · by_cases hk : key = k'
    · subst hk
      rw [revoke_license, getRecord_mapUpdate_self, hb]
      simp [hh]
    · rw [revoke_license, getRecord_mapUpdate_other s k' key _ hk, hb]
      simp [hh]
  · rcases verify_store_effect secret s now L H with heff | ⟨⟨r0, hr0, hw0⟩, heff⟩
    · rw [heff, hb]
      simp [hh]
    · rw [heff]
      by_cases hk : key = L
      · subst hk
        rw [hb] at hr0
        cases hr0
        rw [hh] at hw0
        cases hw0
      · rw [getRecord_mapUpdate_other s L key _ hk, hb]
        simp [hh]

/-- Witness for C10: a bound record survives each operation. -/
theorem bound_hwid_permanent_witness :
    (getRecord [("K", (⟨100, some "H", false⟩ : Record))] "K" = some ⟨100, some "H", false⟩ ∧
     (⟨100, some "H", false⟩ : Record).hwid = some "H") ∧
    ((getRecord (create_license [("K", ⟨100, some "H", false⟩)] "K2" 7) "K").map Record.hwid =
       some (some "H") ∧
     (getRecord (revoke_license [("K", ⟨100, some "H", false⟩)] "K2") "K").map Record.hwid =
       some (some "H") ∧
     (getRecord (verify_license "sec" [("K", ⟨100, some "H", false⟩)] 50 "K" "H2").2 "K").map
       Record.hwid = some (some "H") ∧
     (list_licenses [("K", (⟨100, some "H", false⟩ : Record))]).2 =
       [("K", ⟨100, some "H", false⟩)]) :=
  ⟨⟨by decide, rfl⟩,
   bound_hwid_permanent "sec" [("K", ⟨100, some "H", false⟩)] "K" ⟨100, some "H", false⟩
     "H" 50 7 "K2" "K" "H2" (by decide) rfl⟩

/-- C3: after the admin hwid-reset (modelled from the spec) on a bound,
non-revoked, non-expired license, a verify with a new hwid `h'` returns the
valid verdict over the stored expiry and binds `h'`. -/
theorem reset_then_verify (secret : String) (s : Store) (key : String)
    (r : Record) (now : Int) (h h' : String)
    (hb : getRecord s key = some r) (_hbound : r.hwid = some h)
    (hrev : r.revoked = false) (hexp : ¬ r.expires < now) :
    (verify_license secret (reset_hwid s key) now key h').1 =
      ⟨true, r.expires, sign secret true r.expires⟩ ∧
    getRecord (verify_license secret (reset_hwid s key) now key h').2 key =
      some ⟨r.expires, some h', false⟩ := by
  have hr : getRecord (reset_hwid s key) key = some ⟨r.expires, none, r.revoked⟩ := by
    rw [reset_hwid, getRecord_mapUpdate_self, hb]
    rfl
  have h1 : verify_license secret (reset_hwid s key) now key h' =
      (⟨true, r.expires, sign secret true r.expires⟩,
       mapUpdate (reset_hwid s key) key (fun r' => { r' with hwid := some h' })) := by
    simp [verify_license, verifyFinish, hr, hrev, hexp]
  constructor
  · rw [h1]
  · rw [h1]
    show getRecord (mapUpdate _ key _) key = _
    rw [getRecord_mapUpdate_self, hr]
    simp [← hrev]

/-- Witness for C3: reset a bound record, then verify and rebind. -/
theorem reset_then_verify_witness :
    (getRecord [("K", (⟨100, some "OLD", false⟩ : Record))] "K" = some ⟨100, some "OLD", false⟩ ∧
     (⟨100, some "OLD", false⟩ : Record).hwid = some "OLD" ∧
     (⟨100, some "OLD", false⟩ : Record).revoked = false ∧
     ¬ (⟨100, some "OLD", false⟩ : Record).expires < 50) ∧
    ((verify_license "sec" (reset_hwid [("K", ⟨100, some "OLD", false⟩)] "K") 50 "K" "NEW").1 =
       ⟨true, 100, sign "sec" true 100⟩ ∧
     getRecord (verify_license "sec" (reset_hwid [("K", ⟨100, some "OLD", false⟩)] "K")
       50 "K" "NEW").2 "K" = some ⟨100, some "NEW", false⟩) :=
  ⟨⟨by decide, rfl, rfl, by decide⟩,
   reset_then_verify "sec" [("K", ⟨100, some "OLD", false⟩)] "K" ⟨100, some "OLD", false⟩
     50 "OLD" "NEW" (by decide) rfl rfl (by decide)⟩

/-- C4 (exhibiting the race): the first-use binding is NOT a compare-and-set.
The handler's two database round trips are `getRecord` (the SELECT) and, on
the unbound path, an unconditional `UPDATE licenses SET hwid = ...` guarded
only by the previously fetched row. Interleaving two first-use requests with
hwids `"H1"` and `"H2"` as read₁, read₂, finish₁, finish₂ makes BOTH verdicts
valid, and the second blind write overwrites the first binding, leaving
`"H2"` stored — the execution the claim says must not exist. -/
theorem concurrent_bind_both_valid :
    (verifyFinish "sec" [("L", ⟨100, none, false⟩)] 50 "L" "H1"
        (getRecord [("L", ⟨100, none, false⟩)] "L")).1.valid = true ∧
    (verifyFinish "sec"
        (verifyFinish "sec" [("L", ⟨100, none, false⟩)] 50 "L" "H1"
          (getRecord [("L", ⟨100, none, false⟩)] "L")).2 50 "L" "H2"
        (getRecord [("L", ⟨100, none, false⟩)] "L")).1.valid = true ∧
    (getRecord (verifyFinish "sec"
        (verifyFinish "sec" [("L", ⟨100, none, false⟩)] 50 "L" "H1"
          (getRecord [("L", ⟨100, none, false⟩)] "L")).2 50 "L" "H2"
        (getRecord [("L", ⟨100, none, false⟩)] "L")).2 "L").map Record.hwid =
      some (some "H2") := by
  refine ⟨rfl, rfl, ?_⟩
  decide

/-- Signature coverage of the verify handler: on every return path the
`signature` field is `sign` applied to the `valid` and `expires` values of
that same response, and the outgoing `expires` is 0 exactly when the license
was not found and the stored value otherwise. -/
theorem verify_sig_helper (secret : String) (s : Store) (now : Int) (L H : String) :
    (verify_license secret s now L H).1.signature =
      sign secret (verify_license secret s now L H).1.valid
        (verify_license secret s now L H).1.expires ∧
    (verify_license secret s now L H).1.expires =
      (match getRecord s L with | none => 0 | some r => r.expires) := by
  cases hg : getRecord s L with
  | none => simp [verify_license, verifyFinish, hg]
  | some r =>
    by_cases h1 : r.revoked
    · simp [verify_license, verifyFinish, hg, h1]
    · by_cases h2 : r.expires < now
      · simp [verify_license, verifyFinish, hg, h1, h2]
      · cases hw : r.hwid with
        | none => simp [verify_license, verifyFinish, hg, h1, h2, hw]
        | some h0 =>
          by_cases h3 : h0 = H <;>
            simp [verify_license, verifyFinish, hg, h1, h2, hw, h3]

/-- Every `wordHex` output is 8 characters. -/
theorem wordHex_length (w : Nat) : (wordHex w).length = 8 := rfl

/-- Every hex digest of an eight-word hash value is 64 characters. -/
theorem sha8Hex_length (st : Sha8) : (sha8Hex st).length = 64 := by
  simp [sha8Hex, String.length_append, wordHex_length]

/-- Every `sha256Hex` output is a 64-character (fixed-length) hex string. -/
theorem sha256Hex_length (s : String) : (sha256Hex s).length = 64 :=
  sha8Hex_length _

/-- C9: every return path of the verify handler carries a signature equal to
`sign` over the verdict values it actually returns; the outgoing `expires` is
0 for not-found and the stored value otherwise; `sign` is by definition the
SHA-256 hex digest of the canonical message `"<valid-token>|<expires>"`
concatenated with the secret, where the boolean renders through the single
function `boolToken` (`"True"`/`"False"`) on all paths; the digest has fixed
length 64. `sign` is a pure function of `(secret, valid, expires)`, so
identical pairs yield identical signatures by definition. -/
theorem verify_signature_scheme (secret : String) (s : Store) (now : Int)
    (L H : String) (b : Bool) (e : Int) :
    (verify_license secret s now L H).1.signature =
      sign secret (verify_license secret s now L H).1.valid
        (verify_license secret s now L H).1.expires ∧
    (verify_license secret s now L H).1.expires =
      (match getRecord s L with | none => 0 | some r => r.expires) ∧
    sign secret b e = sha256Hex (boolToken b ++ "|" ++ toString e ++ secret) ∧
    (sign secret b e).length = 64 ∧
    boolToken true = "True" ∧ boolToken false = "False" :=
  ⟨(verify_sig_helper secret s now L H).1, (verify_sig_helper secret s now L H).2,
   rfl, sha256Hex_length _, rfl, rfl⟩

/-- Inside an open window (`¬ windowEnd < now`), `n` further Admit calls from
a caller whose counter is at `k` with `k + n ≤ 30` are all admitted and move
the counter to `k + n` without touching the window end. -/
theorem allowRun_count (n : Nat) : ∀ (rt : RateTable) (k : Nat),
    ∀ (now w : Int) (caller : String),
    rt caller = some ⟨k, w⟩ → ¬ w < now → k + n ≤ 30 →
    (allowRun n rt now caller).1 = true ∧
    (allowRun n rt now caller).2 caller = some ⟨k + n, w⟩ := by
  induction n with
  | zero =>
    intro rt k now w caller hc _ _
    simpa [allowRun] using hc
  | succ m ih =>
    intro rt k now w caller hc hw hn
    have hk : ¬ 30 ≤ k := by omega
    have hstep : allowCaller rt now caller =
        (true, fun c => if c = caller then some ⟨k + 1, w⟩ else rt c) := by
      simp [allowCaller, hc, hw, hk]
    have hrun : allowRun (m + 1) rt now caller =
        allowRun m (fun c => if c = caller then some ⟨k + 1, w⟩ else rt c) now caller := by
      simp [allowRun, hstep]
    rw [hrun]
    have hres := ih (fun c => if c = caller then some ⟨k + 1, w⟩ else rt c) (k + 1)
      now w caller (by simp) hw (by omega)
    have harith : k + 1 + m = k + (m + 1) := by omega
    rw [harith] at hres
    exact hres

/-- C1 (rate governor, modelled from the spec): from a fresh caller identity,
30 Admit calls inside one window are all admitted and leave the counter at 30;
the 31st request then fails with `RateLimited` — an `Except.error`, not a
verdict — without touching the counter table or the license store (so before
any store read or write); one second after the window end, a new call is
admitted and the counter resets to 1 with a fresh window. -/
theorem verify_rate_governor (secret : String) (rt0 : RateTable) (s : Store)
    (t0 : Int) (caller L H : String) (h0 : rt0 caller = none) :
    (allowRun 30 rt0 t0 caller).1 = true ∧
    (allowRun 30 rt0 t0 caller).2 caller = some ⟨30, t0 + 60⟩ ∧
    verifyWithRate secret (allowRun 30 rt0 t0 caller).2 s t0 caller L H =
      (Except.error RateLimited.rateLimited, (allowRun 30 rt0 t0 caller).2, s) ∧
    (allowCaller (allowRun 30 rt0 t0 caller).2 (t0 + 61) caller).1 = true ∧
    (allowCaller (allowRun 30 rt0 t0 caller).2 (t0 + 61) caller).2 caller =
      some ⟨1, t0 + 121⟩ := by
  have hstep : allowCaller rt0 t0 caller =
      (true, fun c => if c = caller then some ⟨1, t0 + 60⟩ else rt0 c) := by
    simp [allowCaller, h0]
  have hrun : allowRun 30 rt0 t0 caller =
      allowRun 29 (fun c => if c = caller then some ⟨1, t0 + 60⟩ else rt0 c) t0 caller := by
    simp [allowRun, hstep]
  have hres := allowRun_count 29 (fun c => if c = caller then some ⟨1, t0 + 60⟩ else rt0 c)
    1 t0 (t0 + 60) caller (by simp) (by omega) (by omega)
  have hcount : (allowRun 30 rt0 t0 caller).2 caller = some ⟨30, t0 + 60⟩ := by
    rw [hrun]
    exact hres.2
  refine ⟨by rw [hrun]; exact hres.1, hcount, ?_, ?_, ?_⟩
  · have hrej : allowCaller (allowRun 30 rt0 t0 caller).2 t0 caller =
        (false, (allowRun 30 rt0 t0 caller).2) := by
      simp [allowCaller, hcount, show ¬ t0 + 60 < t0 by omega]
    simp [verifyWithRate, hrej]
  · simp [allowCaller, hcount, show t0 + 60 < t0 + 61 by omega]
  · simp [allowCaller, hcount, show t0 + 60 < t0 + 61 by omega]
    omega

/-- Witness for C1: the empty rate table, a concrete caller and time. -/
theorem verify_rate_governor_witness :
    ((fun _ => none : RateTable) "cli" = none) ∧
    ((allowRun 30 (fun _ => none) 1000 "cli").1 = true ∧
     (allowRun 30 (fun _ => none) 1000 "cli").2 "cli" = some ⟨30, 1060⟩ ∧
     verifyWithRate "sec" (allowRun 30 (fun _ => none) 1000 "cli").2 [] 1000 "cli" "L" "H" =
       (Except.error RateLimited.rateLimited, (allowRun 30 (fun _ => none) 1000 "cli").2, []) ∧
     (allowCaller (allowRun 30 (fun _ => none) 1000 "cli").2 1061 "cli").1 = true ∧
     (allowCaller (allowRun 30 (fun _ => none) 1000 "cli").2 1061 "cli").2 "cli" =
       some ⟨1, 1121⟩) :=
  ⟨rfl, by
    have h := verify_rate_governor "sec" (fun _ => none) [] 1000 "cli" "L" "H" rfl
    norm_num at h ⊢
    exact h⟩
